import Mathlib

/-!
Shallow embedding of the cross-process reentrant file-locking and on-disk
content-store layer of the vendored virtualenv library
(`pybuilder/_vendor/virtualenv/util/lock.py`,
`pybuilder/_vendor/virtualenv/app_data/via_disk_folder.py`,
`pybuilder/_vendor/virtualenv/app_data/via_tempdir.py`).

Machine-level conventions of the embedding:
* the OS-level advisory file lock that `filelock.FileLock` wraps is modelled
  as a boolean `osHeld` flag on the handle (a successful `super().acquire()`
  sets it, `super().release()` clears it; `_CountedFileLock` only ever calls
  `super().acquire()` when its count is 0 and `super().release()` when its
  count is 1, so the inner `FileLock` counter never exceeds 1 and the flag
  is a faithful model of the OS lock state);
* Python's per-object mutexes (`thread_safe`, `_store_lock`) serialize the
  bodies they guard, so the guarded bodies are modelled as atomic state
  transformers;
* the filesystem is modelled as the list of existing paths, and a file's
  contents as an `Option String` (absent / present with text);
* Python exception control flow is modelled with `Except` / explicit error
  outcomes.
-/

/-- Python error kinds relevant to this layer: `ValueError` (bad JSON),
`OSError` (filesystem race), `NotImplementedError` (unsupported operation on
a storage kind), and a catch-all for any other `Exception`. -/
inductive PyErr where
  | valueError
  | osError
  | notImplemented
  | otherError
deriving DecidableEq

namespace Virtualenv

/-! ## `util/lock.py`: `_CountedFileLock` -/

/-- State of a `_CountedFileLock` (lock.py lines 13-35): the lock-file path,
the reentrancy `count`, and the modelled OS-level lock flag (see header). -/
structure CountedFileLock where
  lock_file : String
  count : Nat
  osHeld : Bool
deriving DecidableEq, Repr

/-- `_CountedFileLock.__init__`: `self.count = 0`, OS lock not yet taken. -/
def CountedFileLock.init (lock_file : String) : CountedFileLock :=
  { lock_file := lock_file, count := 0, osHeld := false }

/-- `_CountedFileLock.acquire` (lock.py lines 25-29): under `thread_safe`,
`if self.count == 0: super().acquire(...)` then `self.count += 1`.  A
successful OS-level acquisition is modelled; on `Timeout` the state is
unchanged (the count is not incremented), which preserves every invariant
trivially. -/
def CountedFileLock.acquire (s : CountedFileLock) : CountedFileLock :=
  let s1 := if s.count = 0 then { s with osHeld := true } else s
  { s1 with count := s1.count + 1 }

/-- `_CountedFileLock.release` (lock.py lines 31-35): under `thread_safe`,
`if self.count == 1: super().release(force=force)` then
`self.count = max(self.count - 1, 0)` (`Nat` subtraction is exactly
`max (count - 1) 0`).  When `count == 1` the inner `FileLock` counter is at
most 1, so `super().release` drops the OS lock whether or not `force` is
set. -/
def CountedFileLock.release (force : Bool) (s : CountedFileLock) : CountedFileLock :=
  let s1 := if s.count = 1 then { s with osHeld := false } else s
  { s1 with count := s1.count - 1 }

/-- The spec's handle invariant: the underlying OS lock is held iff
`reentrancy_count > 0`. -/
def LockInv (s : CountedFileLock) : Prop :=
  s.osHeld = true ↔ 0 < s.count

instance (s : CountedFileLock) : Decidable (LockInv s) := by
  unfold LockInv; infer_instance

/-! ## `util/lock.py`: the process-wide lock registry (`_lock_store`) -/

/-- The module-level `_lock_store` dict, modelled as an association list from
lock-file path to the handle stored there.  All mutations happen under the
module-level `_store_lock` mutex, so they are modelled as atomic. -/
abbrev Registry := List (String × CountedFileLock)

/-- The registry key derivation of `ReentrantFileLock._create_lock`
(lock.py line 81): `lock_file = str(self.path / f"{name}.lock")`. -/
def lockFileFor (root name : String) : String :=
  root ++ "/" ++ name ++ ".lock"

/-- `ReentrantFileLock._create_lock` (lock.py lines 80-85): under
`_store_lock`, if `lock_file not in _lock_store` insert a fresh
`_CountedFileLock(lock_file)`, then return `_lock_store[lock_file]`.
Returns the handle together with the updated registry. -/
def create_lock (r : Registry) (lock_file : String) : CountedFileLock × Registry :=
  match r.lookup lock_file with
  | some l => (l, r)
  | none => (CountedFileLock.init lock_file, (lock_file, CountedFileLock.init lock_file) :: r)

/-- `ReentrantFileLock._del_lock` (lock.py lines 87-93): under `_store_lock`
and the handle's `thread_safe`, `if lock.count == 0:
_lock_store.pop(lock.lock_file, None)`. -/
def del_lock (r : Registry) (l : CountedFileLock) : Registry :=
  if l.count = 0 then r.eraseP (fun e => e.1 == l.lock_file) else r

/-- The spec's registry invariant: at most one handle exists per distinct
path, i.e. the stored keys are pairwise distinct (a Python dict guarantees
this by construction; the association-list model must state it). -/
def RegInv (r : Registry) : Prop :=
  (r.map Prod.fst).Nodup

instance (r : Registry) : Decidable (RegInv r) := by
  unfold RegInv; infer_instance

/-! ## `util/lock.py`: `NoOpFileLock` -/

/-- `NoOpFileLock` (lock.py lines 149-162): a `PathLockBase` whose keyed
sub-lock context managers are bare `yield`s.  Only its folder path matters. -/
structure NoOpFileLock where
  path : String
deriving DecidableEq

/-- `NoOpFileLock.__enter__` (lock.py): `raise NotImplementedError`. -/
def NoOpFileLock.enter (_ : NoOpFileLock) : Except PyErr Unit :=
  .error .notImplemented

/-- `NoOpFileLock.__exit__` (lock.py): `raise NotImplementedError`. -/
def NoOpFileLock.exitScope (_ : NoOpFileLock) : Except PyErr Unit :=
  .error .notImplemented

/-- `NoOpFileLock.lock_for_key` (lock.py): `@contextmanager` whose body is a
bare `yield` — running a client body inside the context is exactly running
the body, with no effect on any state of type `σ`. -/
def NoOpFileLock.lock_for_key (_ : NoOpFileLock) (_name : String) (_no_block : Bool)
    (body : σ → σ × α) (s : σ) : σ × α :=
  body s

/-- `NoOpFileLock.non_reentrant_lock_for_key` (lock.py): same bare
`yield`. -/
def NoOpFileLock.non_reentrant_lock_for_key (_ : NoOpFileLock) (_name : String)
    (body : σ → σ × α) (s : σ) : σ × α :=
  body s

/-! ## `app_data/via_disk_folder.py`: `AppDataDiskFolder.extract` -/

/-- The state `AppDataDiskFolder.extract` acts on: which destination paths
already exist, plus a spy counter for invocations of the extraction routine
(`util.zipapp.extract`). -/
structure ExtractState where
  existing : List String
  extractions : Nat
deriving DecidableEq, Repr

/-- The destination path of `AppDataDiskFolder.extract`
(via_disk_folder.py line 75): `dest = root.path / path.name`. -/
def extractDest (root name : String) : String :=
  root ++ "/" ++ name

/-- `AppDataDiskFolder.extract` (via_disk_folder.py lines 68-78), the body
run under `root.lock_for_key(path.name)` (the per-archive-name lock
serializes concurrent callers, so the body is modelled as atomic):
`if not dest.exists(): extract(path, dest)` then `yield dest`.  Invoking the
extraction routine creates `dest` and bumps the spy counter. -/
def AppDataDiskFolder.extract (dest : String) (s : ExtractState) : String × ExtractState :=
  if dest ∈ s.existing then (dest, s)
  else (dest, { existing := dest :: s.existing, extractions := s.extractions + 1 })

/-! ## `app_data/via_disk_folder.py`: `AppDataDiskFolder.py_info_clear` -/

/-- `pathlib.PurePath.suffix` of a file name: the final component's
extension from its last dot, empty unless that dot is at an interior
position (`"a.json"` ↦ `".json"`, `"a."` ↦ `""`, `".hidden"` ↦ `""`). -/
def pathSuffix (name : String) : String :=
  let t := (name.toList.reverse.takeWhile (fun c => c ≠ '.')).length
  if 0 < t ∧ t + 1 < name.length then
    String.mk (name.toList.drop (name.length - (t + 1)))
  else ""

/-- One pass of the loop body of `AppDataDiskFolder.py_info_clear`
(via_disk_folder.py lines 91-95) for one directory entry `f`:
`if filename.suffix == ".json"`, then under `lock_for_key(filename.stem)`,
`if filename.exists(): filename.unlink()`. -/
def clearStep (fs : List String) (f : String) : List String :=
  if pathSuffix f = ".json" then (if f ∈ fs then fs.erase f else fs) else fs

/-- The loop of `py_info_clear` over a to-do list of directory entries. -/
def clearRun (fs : List String) : List String → List String
  | [] => fs
  | f :: rest => clearRun (clearStep fs f) rest

/-- `AppDataDiskFolder.py_info_clear` (via_disk_folder.py lines 87-95):
iterate over the entries of the interpreter-info folder (the `iterdir`
snapshot is the current contents) and run the loop body on each. -/
def AppDataDiskFolder.py_info_clear (fs : List String) : List String :=
  clearRun fs fs

/-- `AppDataDiskFolder.transient` class attribute (via_disk_folder.py). -/
def AppDataDiskFolder.transient : Bool := false

/-- `AppDataDiskFolder.can_update` class attribute (via_disk_folder.py). -/
def AppDataDiskFolder.can_update : Bool := true

/-! ## JSON documents

The values `json.dumps` / `json.loads` exchange, restricted to what the
store persists: null, booleans, integer numbers, strings, arrays, objects
(floating-point numbers are out of scope of the embedding).  `JArray` and
`JFields` are the spine types of nested lists so that all recursion below
is mutual-structural. -/

mutual
inductive JValue where
  | null
  | bool (b : Bool)
  | num (n : Int)
  | str (s : String)
  | arr (elems : JArray)
  | obj (fields : JFields)

inductive JArray where
  | nil
  | cons (v : JValue) (rest : JArray)

inductive JFields where
  | nil
  | cons (key : String) (v : JValue) (rest : JFields)
end

/-- Python's `str` `<`: lexicographic comparison by code point. -/
def charListLt : List Char → List Char → Bool
  | _, [] => false
  | [], _ :: _ => true
  | a :: as, b :: bs =>
    if a.toNat < b.toNat then true
    else if b.toNat < a.toNat then false
    else charListLt as bs

/-- `a < b` on Python strings. -/
def keyLt (a b : String) : Bool :=
  charListLt a.toList b.toList

/-- Insert a key/value pair into a key-sorted field list, before the first
strictly greater key (the ordering Python's `sorted` applies to
`dict.items()` when `sort_keys=True`: lexicographic by code point). -/
def insertField (k : String) (v : JValue) : JFields → JFields
  | .nil => .cons k v .nil
  | .cons k2 v2 rest =>
    if keyLt k k2 then .cons k v (.cons k2 v2 rest)
    else .cons k2 v2 (insertField k v rest)

mutual
/-- Recursively sort every object's fields by key: the effect of
`sort_keys=True` in `json.dumps`, applied as a pre-pass (Python sorts each
dict at emission; pre-sorting then emitting in order is the same since
sorting touches no keys or values). -/
def sortKeysVal : JValue → JValue
  | .arr xs => .arr (sortKeysArr xs)
  | .obj fs => .obj (sortKeysFields fs)
  | .null => .null
  | .bool b => .bool b
  | .num n => .num n
  | .str s => .str s
termination_by structural v => v

def sortKeysArr : JArray → JArray
  | .nil => .nil
  | .cons v rest => .cons (sortKeysVal v) (sortKeysArr rest)
termination_by structural xs => xs

def sortKeysFields : JFields → JFields
  | .nil => .nil
  | .cons k v rest => insertField k (sortKeysVal v) (sortKeysFields rest)
termination_by structural fs => fs
end

/-- Lowercase hexadecimal digit, as `json.dumps` emits in `\uXXXX`. -/
def hexDigitChar (n : Nat) : Char :=
  if n < 10 then Char.ofNat (48 + n) else Char.ofNat (87 + n)

/-- Four lowercase hex digits. -/
def hex4 (n : Nat) : String :=
  String.mk [hexDigitChar (n / 4096 % 16), hexDigitChar (n / 256 % 16),
    hexDigitChar (n / 16 % 16), hexDigitChar (n % 16)]

/-- One character of `json.encoder.py_encode_basestring_ascii` (the default
`ensure_ascii=True` string escaping): named escapes for quote, backslash
and the usual control characters, printable ASCII kept as is, everything
else as `\uXXXX` (with surrogate pairs above the BMP). -/
def escapeChar (c : Char) : String :=
  if c = '"' then "\\\""
  else if c = '\\' then "\\\\"
  else if c = '\n' then "\\n"
  else if c = '\r' then "\\r"
  else if c = '\t' then "\\t"
  else if c.toNat = 8 then "\\b"
  else if c.toNat = 12 then "\\f"
  else if 32 ≤ c.toNat ∧ c.toNat ≤ 126 then String.singleton c
  else if c.toNat < 65536 then "\\u" ++ hex4 c.toNat
  else
    "\\u" ++ hex4 (55296 + (c.toNat - 65536) / 1024) ++
      "\\u" ++ hex4 (56320 + (c.toNat - 65536) % 1024)

/-- A JSON string literal: quoted, characters escaped. -/
def encodeString (s : String) : String :=
  "\"" ++ String.join (s.toList.map escapeChar) ++ "\""

/-- The `indent=2` whitespace prefix at nesting level `lvl`. -/
def indentStr (lvl : Nat) : String :=
  String.mk (List.replicate (2 * lvl) ' ')

mutual
/-- `json.dumps(·, indent=2)` on an already key-sorted value: each container
item on its own line indented two more spaces, `", "`-free item separator
(`,` then newline), `": "` key separator, empty containers inline. -/
def dumpVal (lvl : Nat) : JValue → String
  | .null => "null"
  | .bool true => "true"
  | .bool false => "false"
  | .num n => toString n
  | .str s => encodeString s
  | .arr .nil => "[]"
  | .arr (.cons v rest) =>
    "[\n" ++ indentStr (lvl + 1) ++ dumpVal (lvl + 1) v ++
      dumpArrRest (lvl + 1) rest ++ "\n" ++ indentStr lvl ++ "]"
  | .obj .nil => "\x7b\x7d"
  | .obj (.cons k v rest) =>
    "\x7b\n" ++ indentStr (lvl + 1) ++ encodeString k ++ ": " ++ dumpVal (lvl + 1) v ++
      dumpFieldsRest (lvl + 1) rest ++ "\n" ++ indentStr lvl ++ "\x7d"
termination_by structural v => v

def dumpArrRest (lvl : Nat) : JArray → String
  | .nil => ""
  | .cons v rest => ",\n" ++ indentStr lvl ++ dumpVal lvl v ++ dumpArrRest lvl rest
termination_by structural xs => xs

def dumpFieldsRest (lvl : Nat) : JFields → String
  | .nil => ""
  | .cons k v rest =>
    ",\n" ++ indentStr lvl ++ encodeString k ++ ": " ++ dumpVal lvl v ++
      dumpFieldsRest lvl rest
termination_by structural fs => fs
end

/-- `json.dumps(content, sort_keys=True, indent=2)` as used by
`JSONStoreDisk.write` (via_disk_folder.py line 155). -/
def json_dumps (content : JValue) : String :=
  dumpVal 0 (sortKeysVal content)

/-! ## `app_data/via_disk_folder.py`: `JSONStoreDisk` -/

/-- `JSONStoreDisk.remove` (via_disk_folder.py lines 143-145):
`self.file.unlink()` deletes the backing file, raising `OSError` when it is
already absent. -/
def JSONStoreDisk.remove (file : Option String) : Except PyErr (Option String) :=
  match file with
  | some _ => .ok none
  | none => .error .osError

/-- `JSONStoreDisk.write` (via_disk_folder.py lines 152-156): ensure the
parent folder exists, then
`self.file.write_text(json.dumps(content, sort_keys=True, indent=2))`.
The value is the backing file's contents afterwards. -/
def JSONStoreDisk.write (content : JValue) : Option String :=
  some (json_dumps content)

/-- `JSONStoreDisk.read` (via_disk_folder.py lines 126-141).  `json.loads`
is Python standard-library code outside this repository, abstracted as the
`loads` parameter (`ValueError` = malformed JSON).  `fileAtRead` is the
backing file when `read_text` runs; `fileAtRemove` is the backing file when
the corruption cleanup runs (a concurrent deleter may have emptied it in
between).  Control flow: return the parsed document on success; on
`ValueError` set `bad_format`, then `try: self.remove() except OSError:
pass` and return `None`; on any other exception (e.g. `read_text` raising
`OSError` because the file is absent) return `None` with no removal
attempt.  The result pairs read's return value with the backing file
afterwards. -/
def JSONStoreDisk.read (loads : String → Except PyErr JValue)
    (fileAtRead fileAtRemove : Option String) : Option JValue × Option String :=
  match fileAtRead with
  | none => (none, fileAtRemove)
  | some text =>
    match loads text with
    | .ok doc => (some doc, fileAtRemove)
    | .error .valueError =>
      match JSONStoreDisk.remove fileAtRemove with
      | .ok f => (none, f)
      | .error _ => (none, fileAtRemove)
    | .error _ => (none, fileAtRemove)

/-! ## `app_data/via_tempdir.py`: `TempAppData` -/

/-- A path `p` equal to `root` or inside its subtree. -/
def underPath (root p : String) : Bool :=
  decide (p = root) || List.isPrefixOf (root ++ "/").toList p.toList

/-- Modelled from the spec: `safe_delete` (`util/path.py`, a repository file
not present under the provided sources) — "`close` to force-delete the
entire ephemeral root", "`reset()` recursively deletes the whole cache root
… safe to call on a non-existent folder (no-op, not an error)": remove
every path at or below `root` from the filesystem. -/
def safe_delete (root : String) (fs : List String) : List String :=
  fs.filter (fun p => !underPath root p)

/-- `TempAppData` (via_tempdir.py lines 8-24): an `AppDataDiskFolder`
rooted at a fresh `mkdtemp()` folder. -/
structure TempAppData where
  folder : String
deriving DecidableEq

/-- `TempAppData.transient` class attribute: `True`. -/
def TempAppData.transient (_ : TempAppData) : Bool := true

/-- `TempAppData.can_update` class attribute: `False`. -/
def TempAppData.can_update (_ : TempAppData) : Bool := false

/-- `TempAppData.reset` (via_tempdir.py): docstring-only body, a no-op on
the filesystem. -/
def TempAppData.reset (_ : TempAppData) (fs : List String) : List String := fs

/-- `TempAppData.close` (via_tempdir.py): `safe_delete(self.lock.path)`. -/
def TempAppData.close (a : TempAppData) (fs : List String) : List String :=
  safe_delete a.folder fs

/-- `TempAppData.embed_update_log` (via_tempdir.py):
`raise NotImplementedError`. -/
def TempAppData.embed_update_log (_ : TempAppData)
    (_distribution _for_py_version : String) : Except PyErr Unit :=
  .error .notImplemented

/-- Keys of a field list, in order. -/
def keysOf : JFields → List String
  | .nil => []
  | .cons k _ rest => k :: keysOf rest

/-! # Theorems -/

/-- C1: for every counted file lock satisfying the handle invariant (OS
lock held iff `count > 0`), `acquire` and `release` (with either `force`
flag) preserve the invariant, a fresh handle satisfies it, and on a fresh
handle two `acquire`s need two `release`s before the OS-level lock is
dropped, a third `release` being a no-op (the count floors at 0). -/
theorem counted_lock_reentrancy (s : CountedFileLock) (f : Bool) (p : String)
    (h : LockInv s) :
    LockInv s.acquire ∧
    LockInv (CountedFileLock.release f s) ∧
    LockInv (CountedFileLock.init p) ∧
    (CountedFileLock.release false ((CountedFileLock.init p).acquire.acquire)).osHeld
      = true ∧
    (CountedFileLock.release false
        (CountedFileLock.release false ((CountedFileLock.init p).acquire.acquire))).osHeld
      = false ∧
    CountedFileLock.release false (CountedFileLock.release false
        (CountedFileLock.release false ((CountedFileLock.init p).acquire.acquire))) =
      CountedFileLock.release false
        (CountedFileLock.release false ((CountedFileLock.init p).acquire.acquire)) := by
  refine ⟨?_, ?_, ?_, rfl, rfl, rfl⟩
  · unfold LockInv at h ⊢
    unfold CountedFileLock.acquire
    split <;> simp_all <;> omega
  · unfold LockInv at h ⊢
    unfold CountedFileLock.release
    split <;> simp_all <;> omega
  · unfold LockInv CountedFileLock.init
    simp

/-- C1 witness: the theorem applied to a fresh handle. -/
theorem counted_lock_reentrancy_w :
    LockInv (CountedFileLock.init "a") ∧
    (LockInv (CountedFileLock.init "a").acquire ∧
      LockInv (CountedFileLock.release false (CountedFileLock.init "a")) ∧
      LockInv (CountedFileLock.init "a") ∧
      (CountedFileLock.release false
          ((CountedFileLock.init "a").acquire.acquire)).osHeld = true ∧
      (CountedFileLock.release false (CountedFileLock.release false
          ((CountedFileLock.init "a").acquire.acquire))).osHeld = false ∧
      CountedFileLock.release false (CountedFileLock.release false
          (CountedFileLock.release false ((CountedFileLock.init "a").acquire.acquire))) =
        CountedFileLock.release false
          (CountedFileLock.release false ((CountedFileLock.init "a").acquire.acquire))) :=
  ⟨by decide, counted_lock_reentrancy (CountedFileLock.init "a") false "a" (by decide)⟩

/-- C2 counterexample: on a doubly-acquired fresh handle (count 2),
`release(force=True)` does **not** fully release the OS-level lock, nor
reset the count to 0 — it merely decrements to 1 and leaves the OS lock
held, because the code only calls `super().release` when `count == 1`. -/
theorem release_force_claim_false :
    ¬ ((CountedFileLock.release true ((CountedFileLock.init "p").acquire.acquire)).count
        = 0 ∧
       (CountedFileLock.release true ((CountedFileLock.init "p").acquire.acquire)).osHeld
        = false) := by
  decide

/-- C2 (amended): `release(force=True)` fully releases the OS-level lock
and zeroes the counter only when the reentrancy count is exactly 1; at any
depth ≥ 2 it just decrements the counter by one and the OS-level lock stays
held. -/
theorem release_force_behavior (s1 s2 : CountedFileLock)
    (h1 : LockInv s1) (h2 : LockInv s2) (hc1 : s1.count = 1) (hc2 : 2 ≤ s2.count) :
    (CountedFileLock.release true s1).osHeld = false ∧
    (CountedFileLock.release true s1).count = 0 ∧
    (CountedFileLock.release true s2).osHeld = true ∧
    (CountedFileLock.release true s2).count = s2.count - 1 := by
  unfold LockInv at h1 h2
  unfold CountedFileLock.release
  refine ⟨?_, ?_, ?_, ?_⟩ <;> (split <;> simp_all <;> omega)

/-- C2 witness: the amended theorem at counts 1 and 2. -/
theorem release_force_behavior_w :
    LockInv ⟨"p", 1, true⟩ ∧ LockInv ⟨"p", 2, true⟩ ∧
    (CountedFileLock.mk "p" 1 true).count = 1 ∧ 2 ≤ (CountedFileLock.mk "p" 2 true).count ∧
    ((CountedFileLock.release true ⟨"p", 1, true⟩).osHeld = false ∧
      (CountedFileLock.release true ⟨"p", 1, true⟩).count = 0 ∧
      (CountedFileLock.release true ⟨"p", 2, true⟩).osHeld = true ∧
      (CountedFileLock.release true ⟨"p", 2, true⟩).count = (CountedFileLock.mk "p" 2 true).count - 1) :=
  ⟨by decide, by decide, by decide, by decide,
    release_force_behavior ⟨"p", 1, true⟩ ⟨"p", 2, true⟩ (by decide) (by decide)
      (by decide) (by decide)⟩

/-- C4: `read()` returns the parsed document when the backing file parses;
when parsing raises `ValueError` it returns `None` and the backing file is
absent afterwards, whatever the concurrent deleter did in between (the
`OSError` from a lost race is swallowed); on any other exception — including
`read_text` failing because the file is absent — it returns `None` and makes
no removal attempt, leaving the file state untouched. -/
theorem json_store_read_error_handling (loads : String → Except PyErr JValue)
    (good bad ugly : String) (d : JValue) (e : PyErr) (fr : Option String)
    (hg : loads good = .ok d) (hb : loads bad = .error .valueError)
    (hu : loads ugly = .error e) (he : e ≠ .valueError) :
    JSONStoreDisk.read loads (some good) fr = (some d, fr) ∧
    JSONStoreDisk.read loads (some bad) fr = (none, none) ∧
    JSONStoreDisk.read loads (some ugly) fr = (none, fr) ∧
    JSONStoreDisk.read loads none fr = (none, fr) := by
  refine ⟨?_, ?_, ?_, rfl⟩
  · simp [JSONStoreDisk.read, hg]
  · cases fr <;> simp [JSONStoreDisk.read, JSONStoreDisk.remove, hb]
  · cases e <;> simp_all [JSONStoreDisk.read]

/-- C4 witness: a concrete `loads` with a well-formed, a malformed and an
unreadable input, with a concurrent deleter having already removed the file
(`fr = none`) in the malformed case's removal attempt. -/
theorem json_store_read_error_handling_w :
    (fun s => if s = "g" then Except.ok JValue.null
      else if s = "b" then Except.error PyErr.valueError
      else Except.error PyErr.otherError) "g" = Except.ok JValue.null ∧
    (fun s => if s = "g" then Except.ok JValue.null
      else if s = "b" then Except.error PyErr.valueError
      else Except.error PyErr.otherError) "b" = Except.error PyErr.valueError ∧
    (fun s => if s = "g" then Except.ok JValue.null
      else if s = "b" then Except.error PyErr.valueError
      else Except.error PyErr.otherError) "u" = Except.error PyErr.otherError ∧
    PyErr.otherError ≠ PyErr.valueError ∧
    (JSONStoreDisk.read (fun s => if s = "g" then Except.ok JValue.null
        else if s = "b" then Except.error PyErr.valueError
        else Except.error PyErr.otherError) (some "g") none = (some JValue.null, none) ∧
      JSONStoreDisk.read (fun s => if s = "g" then Except.ok JValue.null
        else if s = "b" then Except.error PyErr.valueError
        else Except.error PyErr.otherError) (some "b") none = (none, none) ∧
      JSONStoreDisk.read (fun s => if s = "g" then Except.ok JValue.null
        else if s = "b" then Except.error PyErr.valueError
        else Except.error PyErr.otherError) (some "u") none = (none, none) ∧
      JSONStoreDisk.read (fun s => if s = "g" then Except.ok JValue.null
        else if s = "b" then Except.error PyErr.valueError
        else Except.error PyErr.otherError) none none = (none, none)) :=
  ⟨rfl, rfl, rfl, by decide,
    json_store_read_error_handling _ "g" "b" "u" JValue.null PyErr.otherError none
      rfl rfl rfl (by decide)⟩

/-- C5: round-trip — writing a document and reading the same entry back
returns the document, for every document on which the JSON decoder inverts
the serializer (`json.loads`/`json.dumps` are Python standard-library code,
abstracted by the `loads` parameter and that inverse hypothesis). -/
theorem json_store_round_trip (loads : String → Except PyErr JValue) (d : JValue)
    (h : loads (json_dumps d) = .ok d) :
    JSONStoreDisk.read loads (JSONStoreDisk.write d) (JSONStoreDisk.write d) =
      (some d, JSONStoreDisk.write d) := by
  simp [JSONStoreDisk.read, JSONStoreDisk.write, h]

/-- C5 witness: the round-trip at a concrete document and decoder. -/
theorem json_store_round_trip_w :
    (fun _ : String => (Except.ok (JValue.obj (.cons "a" (.num 2) .nil)) : Except PyErr JValue))
      (json_dumps (JValue.obj (.cons "a" (.num 2) .nil))) =
      Except.ok (JValue.obj (.cons "a" (.num 2) .nil)) ∧
    JSONStoreDisk.read
        (fun _ : String => (Except.ok (JValue.obj (.cons "a" (.num 2) .nil)) : Except PyErr JValue))
        (JSONStoreDisk.write (JValue.obj (.cons "a" (.num 2) .nil)))
        (JSONStoreDisk.write (JValue.obj (.cons "a" (.num 2) .nil))) =
      (some (JValue.obj (.cons "a" (.num 2) .nil)),
        JSONStoreDisk.write (JValue.obj (.cons "a" (.num 2) .nil))) :=
  ⟨rfl, json_store_round_trip _ (JValue.obj (.cons "a" (.num 2) .nil)) rfl⟩

/-- C6: `extract` is idempotent under the per-archive-name lock — when the
destination already exists the extraction routine is skipped and the same
destination path is yielded; from a state where it does not exist, the
first call runs the extraction step exactly once and the second call with
the same arguments yields the same path, changes nothing, and does not
re-invoke the extraction routine. -/
theorem extract_idempotent (sF sH : ExtractState) (dest : String)
    (hF : dest ∉ sF.existing) (hH : dest ∈ sH.existing) :
    AppDataDiskFolder.extract dest sH = (dest, sH) ∧
    (AppDataDiskFolder.extract dest sF).1 = dest ∧
    (AppDataDiskFolder.extract dest sF).2.extractions = sF.extractions + 1 ∧
    AppDataDiskFolder.extract dest (AppDataDiskFolder.extract dest sF).2 =
      (dest, (AppDataDiskFolder.extract dest sF).2) := by
  refine ⟨?_, ?_, ?_, ?_⟩ <;> simp [AppDataDiskFolder.extract, hF, hH]

/-- C6 witness: one fresh and one already-extracted state. -/
theorem extract_idempotent_w :
    "u/a.zip" ∉ (ExtractState.mk [] 0).existing ∧
    "u/a.zip" ∈ (ExtractState.mk ["u/a.zip"] 1).existing ∧
    (AppDataDiskFolder.extract "u/a.zip" (ExtractState.mk ["u/a.zip"] 1) =
        ("u/a.zip", ExtractState.mk ["u/a.zip"] 1) ∧
      (AppDataDiskFolder.extract "u/a.zip" (ExtractState.mk [] 0)).1 = "u/a.zip" ∧
      (AppDataDiskFolder.extract "u/a.zip" (ExtractState.mk [] 0)).2.extractions =
        (ExtractState.mk [] 0).extractions + 1 ∧
      AppDataDiskFolder.extract "u/a.zip"
          (AppDataDiskFolder.extract "u/a.zip" (ExtractState.mk [] 0)).2 =
        ("u/a.zip", (AppDataDiskFolder.extract "u/a.zip" (ExtractState.mk [] 0)).2)) :=
  ⟨by decide, by decide,
    extract_idempotent (ExtractState.mk [] 0) (ExtractState.mk ["u/a.zip"] 1)
      "u/a.zip" (by decide) (by decide)⟩

/-- C7: every Temp-Dir App Data instance reports `transient=True` and
`can_update=False`, its `reset()` leaves the filesystem untouched,
`embed_update_log` with any arguments raises the unsupported-operation
error (`NotImplementedError`), and after `close()` no path at or below the
backing folder remains on disk. -/
theorem temp_app_data_behavior (a : TempAppData) (d v p : String)
    (fs : List String) (hp : underPath a.folder p = true) :
    a.transient = true ∧
    a.can_update = false ∧
    a.reset fs = fs ∧
    a.embed_update_log d v = .error .notImplemented ∧
    p ∉ a.close fs := by
  refine ⟨rfl, rfl, rfl, rfl, ?_⟩
  simp [TempAppData.close, safe_delete, hp]

/-- C7 witness: a concrete ephemeral store whose folder contains a file. -/
theorem temp_app_data_behavior_w :
    underPath (TempAppData.mk "/tmp/x").folder "/tmp/x/f.json" = true ∧
    ((TempAppData.mk "/tmp/x").transient = true ∧
      (TempAppData.mk "/tmp/x").can_update = false ∧
      (TempAppData.mk "/tmp/x").reset ["/tmp/x/f.json", "/other"] =
        ["/tmp/x/f.json", "/other"] ∧
      (TempAppData.mk "/tmp/x").embed_update_log "wheel" "3.9" =
        .error .notImplemented ∧
      "/tmp/x/f.json" ∉ (TempAppData.mk "/tmp/x").close ["/tmp/x/f.json", "/other"]) :=
  ⟨by decide,
    temp_app_data_behavior (TempAppData.mk "/tmp/x") "wheel" "3.9" "/tmp/x/f.json"
      ["/tmp/x/f.json", "/other"] (by decide)⟩

/-- C9 counterexample: in the no-op Path Lock variant, entering the
whole-directory lock does not succeed — `__enter__` raises
`NotImplementedError` — so not every lock operation is a pass-through. -/
theorem noop_lock_enter_claim_false :
    (NoOpFileLock.mk "dir").enter ≠ Except.ok () := by
  simp [NoOpFileLock.enter]

/-- C9 (amended): in the no-op Path Lock variant, `lock_for_key(name,
no_block)` and `non_reentrant_lock_for_key(name)` are pure pass-throughs —
running a body inside them is exactly running the body, acquiring nothing,
for every name — while entering or exiting the whole-directory lock raises
`NotImplementedError`. -/
theorem noop_lock_pass_through (l : NoOpFileLock) (name : String) (nb : Bool)
    (body : σ → σ × α) (s : σ) :
    l.lock_for_key name nb body s = body s ∧
    l.non_reentrant_lock_for_key name body s = body s ∧
    l.enter = .error .notImplemented ∧
    l.exitScope = .error .notImplemented :=
  ⟨rfl, rfl, rfl, rfl⟩

/-- A lookup misses exactly when the key is absent from the stored keys. -/
theorem lookup_none_iff (r : Registry) (p : String) :
    r.lookup p = none ↔ p ∉ r.map Prod.fst := by
  induction r with
  | nil => simp
  | cons e r ih =>
    obtain ⟨a, b⟩ := e
    by_cases hpa : p = a
    · subst hpa; simp [List.lookup]
    · simp [List.lookup, beq_false_of_ne hpa, hpa, ih]

/-- Popping a key from a registry with pairwise-distinct keys makes lookups
of that key miss. -/
theorem lookup_eraseP_self (r : Registry) (k : String) (h : RegInv r) :
    (r.eraseP (fun e => e.1 == k)).lookup k = none := by
  induction r with
  | nil => simp
  | cons e r ih =>
    obtain ⟨a, b⟩ := e
    unfold RegInv at h
    simp only [List.map_cons, List.nodup_cons] at h
    by_cases hak : a = k
    · subst hak
      simp only [List.eraseP_cons, beq_self_eq_true, cond_true]
      exact (lookup_none_iff r a).mpr h.1
    · simp only [List.eraseP_cons, beq_false_of_ne hak, cond_false]
      rw [show List.lookup k ((a, b) :: r.eraseP (fun e => e.1 == k)) =
          List.lookup k (r.eraseP (fun e => e.1 == k)) by
        simp [List.lookup, beq_false_of_ne (Ne.symm hak)]]
      exact ih h.2

/-- Popping one key leaves lookups of every other key unchanged. -/
theorem lookup_eraseP_ne (r : Registry) (k q : String) (hq : q ≠ k) :
    (r.eraseP (fun e => e.1 == k)).lookup q = r.lookup q := by
  induction r with
  | nil => simp
  | cons e r ih =>
    obtain ⟨a, b⟩ := e
    by_cases hak : a = k
    · subst hak
      simp only [List.eraseP_cons, beq_self_eq_true, cond_true]
      simp [List.lookup, beq_false_of_ne hq]
    · by_cases hqa : q = a
      · subst hqa
        simp [List.eraseP_cons, beq_false_of_ne hak, List.lookup]
      · simp only [List.eraseP_cons, beq_false_of_ne hak, cond_false]
        simp [List.lookup, beq_false_of_ne hqa, ih]

/-- Removing an entry preserves key distinctness. -/
theorem regInv_eraseP (r : Registry) (f : String × CountedFileLock → Bool)
    (h : RegInv r) : RegInv (r.eraseP f) := by
  unfold RegInv at *
  exact h.sublist ((List.eraseP_sublist r).map Prod.fst)

/-- C3: one handle per path.  Creating a handle keeps registry keys
pairwise distinct; a second request for the same path returns the very
handle the first request returned and leaves the registry untouched; after
a request the handle is registered under its path; on a miss the handle is
created lazily in fresh state (`count = 0`) and prepended; and `_del_lock`
evicts only at reentrancy count 0 — for a held handle (`count > 0`) the
registry is unchanged, for a count-0 handle exactly its path's entry is
dropped (lookups of every other path are unchanged) and key distinctness
is preserved. -/
theorem lock_registry_one_handle_per_path (r r0 : Registry) (p p0 q : String)
    (l0 lp : CountedFileLock) (hr : RegInv r) (hnew : r0.lookup p0 = none)
    (h0 : l0.count = 0) (hp : 0 < lp.count) (hq : q ≠ l0.lock_file) :
    RegInv (create_lock r p).2 ∧
    (create_lock (create_lock r p).2 p).1 = (create_lock r p).1 ∧
    (create_lock (create_lock r p).2 p).2 = (create_lock r p).2 ∧
    (create_lock r p).2.lookup p = some (create_lock r p).1 ∧
    (create_lock r0 p0).1 = CountedFileLock.init p0 ∧
    (create_lock r0 p0).2 = (p0, CountedFileLock.init p0) :: r0 ∧
    del_lock r lp = r ∧
    RegInv (del_lock r l0) ∧
    (del_lock r l0).lookup l0.lock_file = none ∧
    (del_lock r l0).lookup q = r.lookup q := by
  refine ⟨?_, ?_, ?_, ?_, ?_, ?_, ?_, ?_, ?_, ?_⟩
  · cases hc : r.lookup p with
    | some l => simpa [create_lock, hc] using hr
    | none =>
      unfold RegInv at *
      simp only [create_lock, hc, List.map_cons, List.nodup_cons]
      exact ⟨(lookup_none_iff r p).mp hc, hr⟩
  · cases hc : r.lookup p with
    | some l => simp [create_lock, hc]
    | none => simp [create_lock, hc, List.lookup]
  · cases hc : r.lookup p with
    | some l => simp [create_lock, hc]
    | none => simp [create_lock, hc, List.lookup]
  · cases hc : r.lookup p with
    | some l => simp [create_lock, hc]
    | none => simp [create_lock, hc, List.lookup]
  · simp [create_lock, hnew]
  · simp [create_lock, hnew]
  · unfold del_lock
    rw [if_neg]
    omega
  · simp only [del_lock, h0, if_pos]
    exact regInv_eraseP r _ hr
  · simp only [del_lock, h0, if_pos]
    exact lookup_eraseP_self r _ hr
  · simp only [del_lock, h0, if_pos]
    exact lookup_eraseP_ne r _ q hq

/-- C3 witness: a registry holding one idle handle plus a held handle. -/
theorem lock_registry_one_handle_per_path_w :
    RegInv [("x", CountedFileLock.init "x")] ∧
    ([] : Registry).lookup "d/a.lock" = none ∧
    (CountedFileLock.init "x").count = 0 ∧
    0 < (CountedFileLock.mk "y" 1 true).count ∧
    "q" ≠ (CountedFileLock.init "x").lock_file ∧
    (RegInv (create_lock [("x", CountedFileLock.init "x")] "d/a.lock").2 ∧
      (create_lock (create_lock [("x", CountedFileLock.init "x")] "d/a.lock").2
          "d/a.lock").1 =
        (create_lock [("x", CountedFileLock.init "x")] "d/a.lock").1 ∧
      (create_lock (create_lock [("x", CountedFileLock.init "x")] "d/a.lock").2
          "d/a.lock").2 =
        (create_lock [("x", CountedFileLock.init "x")] "d/a.lock").2 ∧
      (create_lock [("x", CountedFileLock.init "x")] "d/a.lock").2.lookup "d/a.lock" =
        some (create_lock [("x", CountedFileLock.init "x")] "d/a.lock").1 ∧
      (create_lock [] "d/a.lock").1 = CountedFileLock.init "d/a.lock" ∧
      (create_lock [] "d/a.lock").2 =
        ("d/a.lock", CountedFileLock.init "d/a.lock") :: [] ∧
      del_lock [("x", CountedFileLock.init "x")] (CountedFileLock.mk "y" 1 true) =
        [("x", CountedFileLock.init "x")] ∧
      RegInv (del_lock [("x", CountedFileLock.init "x")] (CountedFileLock.init "x")) ∧
      (del_lock [("x", CountedFileLock.init "x")]
          (CountedFileLock.init "x")).lookup (CountedFileLock.init "x").lock_file =
        none ∧
      (del_lock [("x", CountedFileLock.init "x")] (CountedFileLock.init "x")).lookup "q" =
        [("x", CountedFileLock.init "x")].lookup "q") :=
  ⟨by decide, by decide, by decide, by decide, by decide,
    lock_registry_one_handle_per_path [("x", CountedFileLock.init "x")] []
      "d/a.lock" "d/a.lock" "q" (CountedFileLock.init "x") (CountedFileLock.mk "y" 1 true)
      (by decide) (by decide) (by decide) (by decide) (by decide)⟩

/-- The `py_info_clear` loop deletes exactly the to-do entries with suffix
`.json`, on a duplicate-free filesystem. -/
theorem clearRun_filter (todo : List String) : ∀ fs : List String, fs.Nodup →
    clearRun fs todo =
      fs.filter (fun f => !(decide (pathSuffix f = ".json") && decide (f ∈ todo))) := by
  induction todo with
  | nil =>
    intro fs _
    simp only [clearRun]
    rw [List.filter_congr (q := fun _ => true) (by simp), List.filter_true]
  | cons f rest ih =>
    intro fs h
    by_cases hs : pathSuffix f = ".json"
    · by_cases hm : f ∈ fs
      · rw [clearRun, clearStep, if_pos hs, if_pos hm, List.Nodup.erase_eq_filter h f,
          ih _ (h.filter _), List.filter_filter]
        refine List.filter_congr ?_
        intro x hx
        by_cases hxf : x = f
        · subst hxf; simp [hs]
        · simp [hxf]
      · rw [clearRun, clearStep, if_pos hs, if_neg hm, ih _ h]
        refine List.filter_congr ?_
        intro x hx
        have hxf : x ≠ f := fun he => hm (he ▸ hx)
        simp [hxf]
    · rw [clearRun, clearStep, if_neg hs, ih _ h]
      refine List.filter_congr ?_
      intro x hx
      by_cases hxf : x = f
      · subst hxf; simp [hs]
      · simp [hxf]

/-- C10: on a duplicate-free interpreter-info folder, `py_info_clear`
leaves exactly the entries whose suffix is not `.json` (in order): every
`.json`-suffixed file is gone afterwards, and every file with any other
suffix — e.g. a `.lock` file — is still there. -/
theorem py_info_clear_only_json (fs : List String) (h : fs.Nodup) :
    AppDataDiskFolder.py_info_clear fs =
      fs.filter (fun f => !decide (pathSuffix f = ".json")) ∧
    (∀ f, pathSuffix f = ".json" → f ∉ AppDataDiskFolder.py_info_clear fs) ∧
    (∀ f ∈ fs, pathSuffix f ≠ ".json" → f ∈ AppDataDiskFolder.py_info_clear fs) := by
  have key : AppDataDiskFolder.py_info_clear fs =
      fs.filter (fun f => !decide (pathSuffix f = ".json")) := by
    rw [AppDataDiskFolder.py_info_clear, clearRun_filter fs fs h]
    refine List.filter_congr ?_
    intro x hx
    simp [hx]
  refine ⟨key, ?_, ?_⟩
  · intro f hf hmem
    rw [key] at hmem
    simp [List.mem_filter, hf] at hmem
  · intro f hf hnf
    rw [key]
    simp [List.mem_filter, hf, hnf]

/-- C10 witness: a folder with JSON entries, a lock file and an
extensionless file. -/
theorem py_info_clear_only_json_w :
    ([ "a.json", "b.lock", "c.json", "noext" ] : List String).Nodup ∧
    (AppDataDiskFolder.py_info_clear ["a.json", "b.lock", "c.json", "noext"] =
        (["a.json", "b.lock", "c.json", "noext"] : List String).filter
          (fun f => !decide (pathSuffix f = ".json")) ∧
      (∀ f, pathSuffix f = ".json" →
        f ∉ AppDataDiskFolder.py_info_clear ["a.json", "b.lock", "c.json", "noext"]) ∧
      (∀ f ∈ (["a.json", "b.lock", "c.json", "noext"] : List String),
        pathSuffix f ≠ ".json" →
        f ∈ AppDataDiskFolder.py_info_clear ["a.json", "b.lock", "c.json", "noext"])) :=
  ⟨by decide, py_info_clear_only_json ["a.json", "b.lock", "c.json", "noext"] (by decide)⟩

/-- Code-point lexicographic order is asymmetric. -/
theorem charListLt_asymm : ∀ x y : List Char,
    charListLt x y = true → charListLt y x = false
  | _, [] => by intro h; simp [charListLt] at h
  | [], _ :: _ => by intro _; simp [charListLt]
  | a :: as, b :: bs => by
    intro h
    simp only [charListLt] at h ⊢
    by_cases h1 : a.toNat < b.toNat
    · have h2 : ¬ b.toNat < a.toNat := by omega
      simp [h1, h2]
    · by_cases h2 : b.toNat < a.toNat
      · simp [h1, h2] at h
      · simp only [h1, h2, if_false] at h ⊢
        exact charListLt_asymm as bs h

/-- Code-point lexicographic order is transitive. -/
theorem charListLt_trans : ∀ x y z : List Char,
    charListLt x y = true → charListLt y z = true → charListLt x z = true
  | _, _, [] => by intro _ h2; simp [charListLt] at h2
  | _, [], _ :: _ => by intro h1 _; simp [charListLt] at h1
  | [], _ :: _, _ :: _ => by intro _ _; simp [charListLt]
  | a :: as, b :: bs, c :: cs => by
    intro h1 h2
    simp only [charListLt] at h1 h2 ⊢
    by_cases hab : a.toNat < b.toNat
    · by_cases hbc : b.toNat < c.toNat
      · simp [show a.toNat < c.toNat by omega]
      · by_cases hcb : c.toNat < b.toNat
        · simp [hbc, hcb] at h2
        · simp [show a.toNat < c.toNat by omega]
    · by_cases hba : b.toNat < a.toNat
      · simp [hab, hba] at h1
      · by_cases hbc : b.toNat < c.toNat
        · simp [show a.toNat < c.toNat by omega]
        · by_cases hcb : c.toNat < b.toNat
          · simp [hbc, hcb] at h2
          · have hac : ¬ a.toNat < c.toNat := by omega
            have hca : ¬ c.toNat < a.toNat := by omega
            simp only [hab, hba, hbc, hcb, hac, hca, if_false] at h1 h2 ⊢
            exact charListLt_trans as bs cs h1 h2

/-- `keyLt` is asymmetric. -/
theorem keyLt_asymm (a b : String) (h : keyLt a b = true) : keyLt b a = false :=
  charListLt_asymm a.toList b.toList h

/-- `keyLt` is transitive. -/
theorem keyLt_trans (a b c : String) (h1 : keyLt a b = true)
    (h2 : keyLt b c = true) : keyLt a c = true :=
  charListLt_trans a.toList b.toList c.toList h1 h2

/-- A key found in an insertion result is the inserted key or one of the
original keys. -/
theorem mem_keysOf_insertField : ∀ (l : JFields) (x k : String) (v : JValue),
    x ∈ keysOf (insertField k v l) → x = k ∨ x ∈ keysOf l
  | .nil => by
    intro x k v h
    simp [insertField, keysOf] at h
    exact Or.inl h
  | .cons k2 v2 rest => by
    intro x k v h
    unfold insertField at h
    by_cases hk : keyLt k k2
    · rw [if_pos hk] at h
      simpa [keysOf] using h
    · rw [if_neg hk] at h
      simp only [keysOf, List.mem_cons] at h ⊢
      rcases h with h | h
      · exact Or.inr (Or.inl h)
      · rcases mem_keysOf_insertField rest x k v h with h' | h'
        · exact Or.inl h'
        · exact Or.inr (Or.inr h')

/-- Inserting into a key-sorted field list keeps it key-sorted. -/
theorem sorted_insertField : ∀ (l : JFields) (k : String) (v : JValue),
    (keysOf l).Pairwise (fun a b => keyLt b a = false) →
    (keysOf (insertField k v l)).Pairwise (fun a b => keyLt b a = false)
  | .nil => by
    intro k v _
    simp [insertField, keysOf]
  | .cons k2 v2 rest => by
    intro k v h
    simp only [keysOf, List.pairwise_cons] at h
    obtain ⟨hk2, hrest⟩ := h
    unfold insertField
    by_cases hlt : keyLt k k2
    · rw [if_pos hlt]
      simp only [keysOf, List.pairwise_cons, List.mem_cons]
      refine ⟨?_, hk2, hrest⟩
      intro x hx
      rcases hx with rfl | hx
      · exact keyLt_asymm _ _ hlt
      · cases hxk : keyLt x k with
        | false => rfl
        | true =>
          have := keyLt_trans x k k2 hxk hlt
          rw [hk2 x hx] at this
          exact absurd this (by simp)
    · rw [if_neg hlt]
      simp only [keysOf, List.pairwise_cons]
      constructor
      · intro x hx
        rcases mem_keysOf_insertField rest x k v hx with rfl | hx'
        · simpa using hlt
        · exact hk2 x hx'
      · exact sorted_insertField rest k v hrest

/-- The serializer's `sort_keys=True` pre-pass leaves every object's field
keys in nondecreasing code-point order. -/
theorem sorted_sortKeysFields : ∀ fs : JFields,
    (keysOf (sortKeysFields fs)).Pairwise (fun a b => keyLt b a = false)
  | .nil => by simp [sortKeysFields, keysOf]
  | .cons k v rest => by
    have ih := sorted_sortKeysFields rest
    rw [sortKeysFields]
    exact sorted_insertField (sortKeysFields rest) k (sortKeysVal v) ih

/-- C8: `write` serializes with keys sorted and 2-space indentation — the
mapping `{"b": 1, "a": 2}` is written as the exact text
`{\n  "a": 2,\n  "b": 1\n}` (so `"a"` occurs before `"b"`), and in general
the `sort_keys=True` pass emits every object's keys in nondecreasing
code-point order. -/
theorem write_sorted_keys_indent :
    JSONStoreDisk.write (JValue.obj (.cons "b" (.num 1) (.cons "a" (.num 2) .nil))) =
      some "\x7b\n  \"a\": 2,\n  \"b\": 1\n\x7d" ∧
    List.indexOf 'a' ("\x7b\n  \"a\": 2,\n  \"b\": 1\n\x7d".toList) <
      List.indexOf 'b' ("\x7b\n  \"a\": 2,\n  \"b\": 1\n\x7d".toList) ∧
    ∀ fs : JFields,
      (keysOf (sortKeysFields fs)).Pairwise (fun a b => keyLt b a = false) :=
  ⟨by decide, by decide, sorted_sortKeysFields⟩

end Virtualenv
